import Mathlib

/-!
Verification of the camera-streaming supervisor (`cameraServer.py`).

The development shallowly embeds the program's components:

* character/string helpers modelling Python's `in`, `.lower()` and `.strip()`
  on decoded diagnostic lines (strings are modelled as `List Char`);
* `monitor_process_output` — the diagnostic-line health classifier;
* `startStreamingRaw` / `start_streaming` — the pipeline launcher, with the
  exception-propagating body separated from the `except`-catching wrapper;
* `killRaw` / `kill_camera_processes` / `killEffect` — the teardown;
* a small-step/trace supervisor model (`waitLoop`, `waitFI`, `tryLaunch`,
  `pollIter`, `pollLoop`, `cycle`, `mainLoop`, `runMain`) of `main`, driven
  by finite oracle streams of probe results, notification outcomes, launch
  environments and poll inputs, emitting an event trace.

External effects (process spawning, sockets, GPIO, HTTP) are modelled by
oracle inputs and trace events; all control flow, state mutation and string
classification are translated directly from the source.
-/

/-- Python `str.isspace`-style whitespace test for the characters `.strip()`
removes (ASCII subset, which is all that occurs in diagnostic lines). -/
def isWs (c : Char) : Bool :=
  c == ' ' || c == '\t' || c == '\n' || c == '\r' || c == '\x0b' || c == '\x0c'

/-- ASCII lower-casing of one character, modelling Python `str.lower` on the
ASCII alphabet (diagnostic lines and all error tokens are ASCII). -/
def lowerChar (c : Char) : Char :=
  match c with
  | 'A' => 'a' | 'B' => 'b' | 'C' => 'c' | 'D' => 'd' | 'E' => 'e'
  | 'F' => 'f' | 'G' => 'g' | 'H' => 'h' | 'I' => 'i' | 'J' => 'j'
  | 'K' => 'k' | 'L' => 'l' | 'M' => 'm' | 'N' => 'n' | 'O' => 'o'
  | 'P' => 'p' | 'Q' => 'q' | 'R' => 'r' | 'S' => 's' | 'T' => 't'
  | 'U' => 'u' | 'V' => 'v' | 'W' => 'w' | 'X' => 'x' | 'Y' => 'y'
  | 'Z' => 'z'
  | c => c

/-- Python `str.strip()`: drop whitespace from both ends. -/
def pyStrip (l : List Char) : List Char :=
  ((l.dropWhile isWs).reverse.dropWhile isWs).reverse

/-- Python `str.lower()`. -/
def lowerL (l : List Char) : List Char := l.map lowerChar

/-- Python substring containment `needle in haystack` as a boolean. -/
def subL (n : List Char) : List Char → Bool
  | [] => n.isEmpty
  | c :: t => n.isPrefixOf (c :: t) || subL n t

/-- The fixed error tokens of `monitor_process_output` (line 90). -/
def errTokens : List (List Char) :=
  ["error".toList, "failed".toList, "cannot".toList,
   "unable".toList, "timeout".toList, "terminated".toList]

/-- The informational marker checked case-sensitively (line 85). -/
def infoMark : List Char := "INFO".toList

/-- `any(error_term in error_output.lower() for error_term in [...])`. -/
def hasErrTok (l : List Char) : Bool :=
  errTokens.any (fun t => subL t (lowerL l))

/-- Supervisor phases, used to tag observation events in the trace. -/
inductive Phase where
  | waiting
  | launching
  | streaming
  | cooldown
deriving DecidableEq, Repr

/-- Observable events of a supervisor run.  `kill` is an invocation of
`kill_camera_processes`; `notify b` an invocation of `start_camera_feed`
whose HTTP call succeeded iff `b`; `gpio b` a write to output pin 18;
`launchTry b` a completed `start_streaming` attempt with outcome `b`;
`readLine cap` a non-blocking one-line read from the capture (`true`) or
publish (`false`) process's diagnostic stream; `readFinal cap` a full read
of that stream after exit; `probe b` a `check_internet` call returning `b`;
`obs ph ind` an observation point in phase `ph` with indicator level `ind`;
`cleanup` the final `GPIO.cleanup()`. -/
inductive Ev where
  | kill
  | notify (ok : Bool)
  | gpio (hi : Bool)
  | launchTry (ok : Bool)
  | readLine (cap : Bool)
  | readFinal (cap : Bool)
  | probe (ok : Bool)
  | sleep (secs : Nat)
  | obs (ph : Phase) (ind : Bool)
  | spawnCapture
  | spawnPublish
  | cleanup
deriving DecidableEq, Repr

/-- `monitor_process_output(process, process_name)` (lines 77-95).  The input
is `none` when `select` reports no pending data, `some raw` when one line
with decoded content `raw` is pending; the function returns the fatality
verdict together with the read event it performed. -/
def monitor_process_output (pname : String) (line : Option (List Char)) :
    Bool × List Ev :=
  match line with
  | none => (false, [])
  | some raw =>
    let s := pyStrip raw
    let fatal :=
      if s.isEmpty then false
      else if pname == "libcamera" && subL infoMark s then false
      else hasErrTok s
    (fatal, [Ev.readLine (pname == "libcamera")])

/-- Python exceptions that can escape a launcher step. -/
inductive PyErr where
  | popenFailed
  | closeFailed
deriving DecidableEq, Repr

/-- Oracle for one `start_streaming` attempt: whether the capture `Popen`
raises, whether the capture process has already exited (with which code)
after the one-second settle delay, whether the publish `Popen` raises, and
whether closing the transferred pipe endpoint raises. -/
structure StartEnv where
  captureSpawn : Option PyErr
  captureEarlyExit : Option Int
  publishSpawn : Option PyErr
  closeRaises : Bool
deriving DecidableEq, Repr

/-- The body of `start_streaming` (lines 99-149) with exceptions
propagating; errors carry the events performed before the raise. -/
def startStreamingRaw (e : StartEnv) :
    Except (PyErr × List Ev) (Option Unit × List Ev) :=
  match e.captureSpawn with
  | some err => .error (err, [Ev.kill])
  | none =>
    match e.captureEarlyExit with
    | some _ =>
      .ok (none, [Ev.kill, Ev.spawnCapture, Ev.sleep 1, Ev.readFinal true])
    | none =>
      match e.publishSpawn with
      | some err => .error (err, [Ev.kill, Ev.spawnCapture, Ev.sleep 1])
      | none =>
        if e.closeRaises then
          .error (PyErr.closeFailed,
            [Ev.kill, Ev.spawnCapture, Ev.sleep 1, Ev.spawnPublish])
        else
          .ok (some (),
            [Ev.kill, Ev.spawnCapture, Ev.sleep 1, Ev.spawnPublish])

/-- `start_streaming` (lines 97-152): the body wrapped in the blanket
`except Exception` handler that logs and returns `None`. -/
def start_streaming (e : StartEnv) : Option Unit × List Ev :=
  match startStreamingRaw e with
  | .ok r => r
  | .error (_, evs) => (none, evs)

/-- Outcome of one `subprocess.run(['pkill', ...], timeout=5)` call. -/
inductive KOut where
  | ok
  | timeout
  | raise
deriving DecidableEq, Repr

/-- Oracle for one `kill_camera_processes` call. -/
structure KillEnv where
  pkill1 : KOut
  pkill2 : KOut
deriving DecidableEq, Repr

/-- Exceptions distinguished by `kill_camera_processes`'s handlers. -/
inductive KErr where
  | timeoutExpired
  | other
deriving DecidableEq, Repr

/-- The body of `kill_camera_processes` (lines 68-71) with exceptions
propagating. -/
def killRaw (e : KillEnv) : Except KErr Unit :=
  match e.pkill1 with
  | KOut.timeout => .error KErr.timeoutExpired
  | KOut.raise => .error KErr.other
  | KOut.ok =>
    match e.pkill2 with
    | KOut.timeout => .error KErr.timeoutExpired
    | KOut.raise => .error KErr.other
    | KOut.ok => .ok ()

/-- `kill_camera_processes` (lines 66-75): both the `TimeoutExpired` handler
and the blanket `Exception` handler swallow the error; the function always
returns `None`. -/
def kill_camera_processes (e : KillEnv) : Unit :=
  match killRaw e with
  | .ok _ => ()
  | .error KErr.timeoutExpired => ()
  | .error KErr.other => ()

/-- Effect of the two `pkill -f` commands on the system's process table
(each process represented by its command line): every process whose command
line contains `libcamera`, then every one containing `ffmpeg`, is removed. -/
def killEffect (procs : List (List Char)) : List (List Char) :=
  (procs.filter (fun c => !(subL ("libcamera".toList) c))).filter
    (fun c => !(subL ("ffmpeg".toList) c))

/-- Supervisor state carried across the loop: the global `status`
notification flag (line 27, `true` = notified) and the level of output
pin 18 (the streaming indicator). -/
structure Config where
  status : Bool
  ind : Bool
deriving DecidableEq, Repr

/-- Oracle input for one streaming poll iteration: the two `poll()` results
(`some code` = exited) and the pending diagnostic line, if any, of each
process's stderr stream. -/
structure PollInp where
  capExit : Option Int
  pubExit : Option Int
  capLine : Option (List Char)
  pubLine : Option (List Char)
deriving DecidableEq, Repr

/-- Oracle streams driving a supervisor run: successive `check_internet`
results (shared by the wait loop and the streaming poll), successive
`start_camera_feed` HTTP outcomes, successive launch-attempt environments,
and successive poll-iteration inputs.  A run that needs an input from an
exhausted stream stops there (the observation is truncated). -/
structure Streams where
  probes : List Bool
  noks : List Bool
  starts : List StartEnv
  polls : List PollInp
deriving DecidableEq, Repr

/-- The `while not check_internet(): ...` loop of `wait_for_internet`
(lines 58-61): consume probes until the first `true`, returning the
remaining probes, the events, and whether any probe failed (each failed
probe executes `status = 0`).  `none` when the probes run out first. -/
def waitLoop : List Bool → Option (List Bool) × List Ev × Bool
  | [] => (none, [], false)
  | p :: ps =>
    if p then (some ps, [Ev.probe true], false)
    else
      let r := waitLoop ps
      (r.1, Ev.probe false :: Ev.sleep 1 :: r.2.1, true)

/-- `wait_for_internet` (lines 55-64): run the wait loop, then
`if not status: start_camera_feed()`; the notifier sets `status = 1` only
when its HTTP call succeeds (lines 33-40).  Returns the new status, the
remaining probe and notification-outcome streams, and the events. -/
def waitFI (probes : List Bool) (noks : List Bool) (st : Bool) :
    Option Bool × List Bool × List Bool × List Ev :=
  match waitLoop probes with
  | (none, evs, _) => (none, [], noks, evs)
  | (some ps, evs, sawFalse) =>
    let st1 := st && !sawFalse
    if st1 then (some true, ps, noks, evs)
    else
      match noks with
      | [] => (none, ps, noks, evs)
      | nok :: nr => (some nok, ps, nr, evs ++ [Ev.notify nok])

/-- The `for retry in range(max_retries)` launch loop (lines 165-171):
attempt `start_streaming` up to the fuel bound, sleeping 3 s after every
failed attempt.  Returns whether a launch succeeded, the remaining launch
environments, and the events. -/
def tryLaunch : Nat → List StartEnv → Bool → Option Bool × List StartEnv × List Ev
  | 0, es, _ => (some false, es, [])
  | _ + 1, [], _ => (none, [], [])
  | n + 1, e :: es, ind =>
    let r := start_streaming e
    let evs := Ev.obs Phase.launching ind :: r.2 ++ [Ev.launchTry r.1.isSome]
    match r.1 with
    | some _ => (some true, es, evs)
    | none =>
      match tryLaunch n es ind with
      | (res, es2, evs2) => (res, es2, evs ++ Ev.sleep 3 :: evs2)

/-- One iteration of the streaming poll loop (lines 179-218), in source
order: log uptime (an observation point), check the capture process's exit
status, check the publish process's exit status, run
`monitor_process_output` on the capture then (via `or` short-circuit) the
publish stream, then `check_internet`.  Result `some true` continues the
loop, `some false` is a `break` (indicator low + teardown already done),
`none` means the probe stream ran out. -/
def pollIter (inp : PollInp) (probes : List Bool) (cfg : Config) :
    Option Bool × List Bool × Config × List Ev :=
  let evs0 := [Ev.obs Phase.streaming cfg.ind]
  match inp.capExit with
  | some _ =>
    (some false, probes, {cfg with ind := false},
      evs0 ++ [Ev.readFinal true, Ev.gpio false, Ev.kill])
  | none =>
    match inp.pubExit with
    | some _ =>
      (some false, probes, {cfg with ind := false},
        evs0 ++ [Ev.readFinal false, Ev.gpio false, Ev.kill])
    | none =>
      let m1 := monitor_process_output "libcamera" inp.capLine
      if m1.1 then
        (some false, probes, {cfg with ind := false},
          evs0 ++ m1.2 ++ [Ev.gpio false, Ev.kill])
      else
        let m2 := monitor_process_output "ffmpeg" inp.pubLine
        if m2.1 then
          (some false, probes, {cfg with ind := false},
            evs0 ++ m1.2 ++ m2.2 ++ [Ev.gpio false, Ev.kill])
        else
          match probes with
          | [] => (none, [], cfg, evs0 ++ m1.2 ++ m2.2)
          | p :: ps =>
            if p then
              (some true, ps, cfg, evs0 ++ m1.2 ++ m2.2 ++ [Ev.probe true, Ev.sleep 3])
            else
              (some false, ps, {cfg with ind := false},
                evs0 ++ m1.2 ++ m2.2 ++ [Ev.probe false, Ev.gpio false, Ev.kill])

/-- The inner `while True` streaming poll loop: iterate `pollIter` until a
`break` (`some ()`) or an input stream runs out (`none`). -/
def pollLoop : List PollInp → List Bool → Config →
    Option Unit × List PollInp × List Bool × Config × List Ev
  | [], probes, cfg => (none, [], probes, cfg, [])
  | i :: is, probes, cfg =>
    match pollIter i probes cfg with
    | (none, ps, cfg2, evs) => (none, is, ps, cfg2, evs)
    | (some false, ps, cfg2, evs) => (some (), is, ps, cfg2, evs)
    | (some true, ps, cfg2, evs) =>
      match pollLoop is ps cfg2 with
      | (r, is2, ps2, cfg3, evs2) => (r, is2, ps2, cfg3, evs ++ evs2)

/-- One iteration of `main`'s outer `while True` loop (lines 162-221):
wait for internet (posssibly notifying), attempt the launch up to 3 times,
on success raise the indicator and run the poll loop, and finish with the
3-second restart cooldown. -/
def cycle (s : Streams) (cfg : Config) : Option Unit × Streams × Config × List Ev :=
  let ev0 := [Ev.obs Phase.waiting cfg.ind]
  match waitFI s.probes s.noks cfg.status with
  | (none, ps, nks, wevs) =>
    (none, {s with probes := ps, noks := nks}, cfg, ev0 ++ wevs)
  | (some st2, ps, nks, wevs) =>
    let cfg1 : Config := {cfg with status := st2}
    match tryLaunch 3 s.starts cfg1.ind with
    | (none, es, levs) =>
      (none, {s with probes := ps, noks := nks, starts := es}, cfg1,
        ev0 ++ wevs ++ levs)
    | (some false, es, levs) =>
      (some (), {s with probes := ps, noks := nks, starts := es}, cfg1,
        ev0 ++ wevs ++ levs ++ [Ev.obs Phase.cooldown cfg1.ind, Ev.sleep 3])
    | (some true, es, levs) =>
      let cfg2 : Config := {cfg1 with ind := true}
      match pollLoop s.polls ps cfg2 with
      | (none, pls, ps2, cfg3, pevs) =>
        (none, {probes := ps2, noks := nks, starts := es, polls := pls}, cfg3,
          ev0 ++ wevs ++ levs ++ [Ev.gpio true] ++ pevs)
      | (some (), pls, ps2, cfg3, pevs) =>
        (some (), {probes := ps2, noks := nks, starts := es, polls := pls}, cfg3,
          ev0 ++ wevs ++ levs ++ [Ev.gpio true] ++ pevs ++
            [Ev.obs Phase.cooldown cfg3.ind, Ev.sleep 3])

/-- The outer `while True` loop, bounded by fuel (the number of cycles
observed); stops early when an oracle stream runs out. -/
def mainLoop : Nat → Streams → Config → Streams × Config × List Ev
  | 0, s, cfg => (s, cfg, [])
  | fuel + 1, s, cfg =>
    match cycle s cfg with
    | (none, s2, cfg2, evs) => (s2, cfg2, evs)
    | (some (), s2, cfg2, evs) =>
      match mainLoop fuel s2 cfg2 with
      | (s3, cfg3, evs2) => (s3, cfg3, evs ++ evs2)

/-- Initial supervisor state: `status = 0` (line 27) and the indicator low
(pin configured as output, not yet driven high). -/
def initConfig : Config := {status := false, ind := false}

/-- `main` (lines 154-226): the initial `kill_camera_processes()`, the
bounded observation of the outer loop, and the `finally` clause
(`kill_camera_processes(); GPIO.cleanup()`), which runs on every exit of
the supervisor process and releases the indicator (low). -/
def runMain (fuel : Nat) (s : Streams) : Config × List Ev :=
  match mainLoop fuel s initConfig with
  | (_, cfg, evs) =>
    ({cfg with ind := false}, Ev.kill :: evs ++ [Ev.kill, Ev.cleanup])

/-- Number of lifecycle-notifier invocations in a trace. -/
def notifyCount (evs : List Ev) : Nat :=
  evs.countP (fun e => match e with | Ev.notify _ => true | _ => false)

/-- Number of completed launch attempts in a trace. -/
def launchTryCount (evs : List Ev) : Nat :=
  evs.countP (fun e => match e with | Ev.launchTry _ => true | _ => false)

/-- Consistency of one observation event: the indicator is high exactly at
streaming-phase observation points. -/
def obsOKb : Ev → Bool
  | Ev.obs ph b => b == (ph == Phase.streaming)
  | _ => true

/-- A launch environment in which every step succeeds. -/
def sOk : StartEnv :=
  {captureSpawn := none, captureEarlyExit := none, publishSpawn := none,
   closeRaises := false}

/-- A launch environment in which the capture `Popen` raises. -/
def sFail : StartEnv :=
  {captureSpawn := some PyErr.popenFailed, captureEarlyExit := none,
   publishSpawn := none, closeRaises := false}

/-- A poll input with no process exit and no pending diagnostic line. -/
def benign : PollInp :=
  {capExit := none, pubExit := none, capLine := none, pubLine := none}

/-- Scenario for claim C1: connectivity present, lost once during the
streaming poll, and already regained when the wait loop next probes. -/
def cexStreamsC1 : Streams :=
  {probes := [true, false, true], noks := [true, true],
   starts := [sOk, sOk], polls := [benign]}

/-- Scenario for claim C2: connectivity continuously present (every probe
`true`, a single reachability epoch), the notification HTTP call failing,
and every launch attempt failing so the wait state is re-entered. -/
def cexStreamsC2 : Streams :=
  {probes := [true, true], noks := [false, false],
   starts := [sFail, sFail, sFail, sFail, sFail, sFail], polls := []}

/-- The event block of one failed launch attempt inside the retry loop. -/
def failBlock (e : StartEnv) (ind : Bool) : List Ev :=
  Ev.obs Phase.launching ind :: (start_streaming e).2 ++
    [Ev.launchTry false, Ev.sleep 3]

example : (monitor_process_output "libcamera" (some ("INFO: an error".toList))).1 = false := by decide
example : (monitor_process_output "ffmpeg" (some ("Connection TIMEOUT".toList))).1 = true := by decide
example : (monitor_process_output "libcamera" (some ("info: an error".toList))).1 = true := by decide
example : (monitor_process_output "ffmpeg" (some ("  all good  ".toList))).1 = false := by decide
example : (monitor_process_output "ffmpeg" (some ("   ".toList))).1 = false := by decide
example : (start_streaming {captureSpawn := none, captureEarlyExit := some 1, publishSpawn := none, closeRaises := false}).1 = none := by decide

/-! ### String-level lemmas -/

/-- `subL` decides list-infix containment, i.e. Python's `in`. -/
theorem subL_correct (n h : List Char) : subL n h = true ↔ n <:+: h := by
  induction h with
  | nil =>
    simp [subL, List.isEmpty_iff]
  | cons c t ih =>
    simp [subL, ih, List.infix_cons_iff, List.isPrefixOf_iff_prefix]

/-- A nonempty whitespace-free infix survives `dropWhile isWs`. -/
theorem infix_dropWhile_ws {n l : List Char} (hne : n ≠ [])
    (hws : ∀ c ∈ n, isWs c = false) (h : n <:+: l) :
    n <:+: l.dropWhile isWs := by
  induction l with
  | nil =>
    rw [List.infix_nil] at h
    exact absurd h hne
  | cons a t ih =>
    by_cases ha : isWs a = true
    · rw [List.dropWhile_cons, if_pos ha]
      rcases List.infix_cons_iff.mp h with hp | hi
      · rcases List.prefix_cons_iff.mp hp with h0 | ⟨t2, ht2, _⟩
        · exact absurd h0 hne
        · have hmem : a ∈ n := by rw [ht2]; exact List.mem_cons_self a t2
          rw [hws a hmem] at ha
          exact absurd ha (by simp)
      · exact ih hi
    · rw [List.dropWhile_cons, if_neg ha]
      exact h

/-- A nonempty whitespace-free infix survives Python's `.strip()`. -/
theorem infix_pyStrip {n l : List Char} (hne : n ≠ [])
    (hws : ∀ c ∈ n, isWs c = false) (h : n <:+: l) :
    n <:+: pyStrip l := by
  have h1 : n <:+: l.dropWhile isWs := infix_dropWhile_ws hne hws h
  have h2 : n.reverse <:+: (l.dropWhile isWs).reverse :=
    List.reverse_infix.mpr h1
  have hne2 : n.reverse ≠ [] := by simpa using hne
  have hws2 : ∀ c ∈ n.reverse, isWs c = false := by
    intro c hc
    exact hws c (List.mem_reverse.mp hc)
  have h3 := infix_dropWhile_ws hne2 hws2 h2
  have h4 := List.reverse_infix.mpr h3
  rw [List.reverse_reverse] at h4
  exact h4

/-- The stripped string is an infix of the original. -/
theorem pyStrip_within (l : List Char) : pyStrip l <:+: l := by
  have h1 : l.dropWhile isWs <:+ l := List.dropWhile_suffix isWs
  have h2 : ((l.dropWhile isWs).reverse).dropWhile isWs <:+
      (l.dropWhile isWs).reverse := List.dropWhile_suffix isWs
  have h3 : (((l.dropWhile isWs).reverse).dropWhile isWs).reverse <+:
      l.dropWhile isWs := by
    rw [← List.reverse_suffix]
    simpa using h2
  exact h3.isInfix.trans h1.isInfix

/-- A list with a nonempty infix is nonempty. -/
theorem ne_nil_of_sub {n l : List Char} (hne : n ≠ []) (h : n <:+: l) :
    l ≠ [] := by
  intro h0
  rw [h0, List.infix_nil] at h
  exact hne h

/-- ASCII lower-casing does not change whitespace-ness. -/
theorem isWs_lowerChar (c : Char) : isWs (lowerChar c) = isWs c := by
  unfold lowerChar
  split <;> rfl

/-- Lower-casing commutes with stripping. -/
theorem lowerL_pyStrip (l : List Char) : lowerL (pyStrip l) = pyStrip (lowerL l) := by
  have hcomp : (isWs ∘ lowerChar) = isWs := funext isWs_lowerChar
  unfold lowerL pyStrip
  rw [List.dropWhile_map, hcomp, ← List.map_reverse, List.dropWhile_map, hcomp,
    ← List.map_reverse]

/-- A line whose lower-casing contains an error token still contains it
after stripping. -/
theorem hasErrTok_pyStrip {l : List Char} (h : hasErrTok l = true) :
    hasErrTok (pyStrip l) = true := by
  rw [hasErrTok, List.any_eq_true] at h ⊢
  obtain ⟨t, ht, hsub⟩ := h
  refine ⟨t, ht, ?_⟩
  rw [lowerL_pyStrip]
  have htne : t ≠ [] :=
    (by decide : ∀ x ∈ errTokens, x ≠ []) t ht
  have htws : ∀ c ∈ t, isWs c = false :=
    (by decide : ∀ x ∈ errTokens, ∀ c ∈ x, isWs c = false) t ht
  exact (subL_correct _ _).mpr
    (infix_pyStrip htne htws ((subL_correct _ _).mp hsub))

/-- A string containing an error token is nonempty. -/
theorem hasErrTok_ne_nil {s : List Char} (h : hasErrTok s = true) : s ≠ [] := by
  rw [hasErrTok, List.any_eq_true] at h
  obtain ⟨t, ht, hsub⟩ := h
  have htne : t ≠ [] :=
    (by decide : ∀ x ∈ errTokens, x ≠ []) t ht
  have hlow : lowerL s ≠ [] :=
    ne_nil_of_sub htne ((subL_correct _ _).mp hsub)
  intro h0
  rw [h0] at hlow
  exact hlow rfl

/-! ### Claims about the diagnostic-line classifier -/

/-- Claim C5: every diagnostic line from the capture process that contains
the substring `INFO` is classified benign by the health monitor (no fatal
signal), even when it also contains an error token such as `error`. -/
theorem claimC5 (l : List Char) (h : subL infoMark l = true) :
    (monitor_process_output "libcamera" (some l)).1 = false := by
  have hinfix : infoMark <:+: l := (subL_correct _ _).mp h
  have hne : infoMark ≠ [] := by decide
  have hws : ∀ c ∈ infoMark, isWs c = false := by decide
  have h2 : infoMark <:+: pyStrip l := infix_pyStrip hne hws hinfix
  have h3 : subL infoMark (pyStrip l) = true := (subL_correct _ _).mpr h2
  have h4 : (pyStrip l).isEmpty = false := by
    have h5 : pyStrip l ≠ [] := ne_nil_of_sub hne h2
    simpa [List.isEmpty_iff] using h5
  simp [monitor_process_output, h3, h4]

/-- Witness for claim C5 at a concrete line containing both `INFO` and
`error`. -/
theorem claimC5_witness :
    subL infoMark ("INFO: pipeline error state".toList) = true ∧
    (monitor_process_output "libcamera"
      (some ("INFO: pipeline error state".toList))).1 = false :=
  ⟨by decide, claimC5 _ (by decide)⟩

/-- Claim C10: the informational exemption is keyed on the exact process
name `libcamera` and the exact uppercase substring `INFO`: a publish-process
line containing `INFO` together with a (case-insensitive) error token is
still fatal, and a capture-process line containing only lowercase `info`
together with an error token is also fatal. -/
theorem claimC10 :
    (∀ l : List Char, subL infoMark l = true → hasErrTok l = true →
      (monitor_process_output "ffmpeg" (some l)).1 = true) ∧
    (∀ l : List Char, subL ("info".toList) (lowerL l) = true →
      subL infoMark l = false → hasErrTok l = true →
      (monitor_process_output "libcamera" (some l)).1 = true) := by
  constructor
  · intro l _ htok
    have hstrip : hasErrTok (pyStrip l) = true := hasErrTok_pyStrip htok
    have hne : pyStrip l ≠ [] := hasErrTok_ne_nil hstrip
    have h4 : (pyStrip l).isEmpty = false := by
      simpa [List.isEmpty_iff] using hne
    have hff : (("ffmpeg" : String) == "libcamera") = false := by decide
    simp [monitor_process_output, h4, hff, hstrip]
  · intro l _ hnoinfo htok
    have hstrip : hasErrTok (pyStrip l) = true := hasErrTok_pyStrip htok
    have hne : pyStrip l ≠ [] := hasErrTok_ne_nil hstrip
    have h4 : (pyStrip l).isEmpty = false := by
      simpa [List.isEmpty_iff] using hne
    have hstripno : subL infoMark (pyStrip l) = false := by
      cases hc : subL infoMark (pyStrip l) with
      | false => rfl
      | true =>
        have h5 : infoMark <:+: l :=
          ((subL_correct _ _).mp hc).trans (pyStrip_within l)
        rw [(subL_correct _ _).mpr h5] at hnoinfo
        exact absurd hnoinfo (by simp)
    simp [monitor_process_output, h4, hstripno, hstrip]

/-- Witness for claim C10: an `INFO`-bearing publish line with an error
token, and a lowercase-`info` capture line with an error token, are both
fatal. -/
theorem claimC10_witness :
    (monitor_process_output "ffmpeg"
      (some ("INFO: connection error".toList))).1 = true ∧
    (monitor_process_output "libcamera"
      (some ("info: connection error".toList))).1 = true :=
  ⟨claimC10.1 _ (by decide) (by decide),
   claimC10.2 _ (by decide) (by decide) (by decide)⟩

/-- Claim C6: a non-empty publish-process diagnostic line containing any of
the error tokens as a case-insensitive substring (e.g. `connection timeout`
in any letter case) is classified fatal, and the poll iteration that reads
it lowers the indicator and invokes teardown before breaking out. -/
theorem claimC6 (inp : PollInp) (probes : List Bool) (cfg : Config)
    (l : List Char)
    (hcap : inp.capExit = none) (hpub : inp.pubExit = none)
    (hm1 : (monitor_process_output "libcamera" inp.capLine).1 = false)
    (hline : inp.pubLine = some l) (hne : l ≠ [])
    (htok : hasErrTok l = true) :
    (monitor_process_output "ffmpeg" (some l)).1 = true ∧
    pollIter inp probes cfg = (some false, probes, {cfg with ind := false},
      [Ev.obs Phase.streaming cfg.ind] ++
      (monitor_process_output "libcamera" inp.capLine).2 ++
      (monitor_process_output "ffmpeg" (some l)).2 ++
      [Ev.gpio false, Ev.kill]) := by
  have hstrip : hasErrTok (pyStrip l) = true := hasErrTok_pyStrip htok
  have hne2 : pyStrip l ≠ [] := hasErrTok_ne_nil hstrip
  have h4 : (pyStrip l).isEmpty = false := by
    simpa [List.isEmpty_iff] using hne2
  have hff : (("ffmpeg" : String) == "libcamera") = false := by decide
  have hm2 : (monitor_process_output "ffmpeg" (some l)).1 = true := by
    simp [monitor_process_output, h4, hff, hstrip]
  refine ⟨hm2, ?_⟩
  simp [pollIter, hcap, hpub, hm1, hline, hm2]

/-- Witness for claim C6: `Connection TIMEOUT` from the publish process is
fatal and tears the pipeline down in the same iteration. -/
theorem claimC6_witness :
    (monitor_process_output "ffmpeg"
      (some ("Connection TIMEOUT".toList))).1 = true ∧
    pollIter
      {capExit := none, pubExit := none, capLine := none,
       pubLine := some ("Connection TIMEOUT".toList)}
      [true] {status := true, ind := true} =
      (some false, [true], {status := true, ind := false},
        [Ev.obs Phase.streaming true, Ev.readLine false,
         Ev.gpio false, Ev.kill]) := by
  have h := claimC6
    {capExit := none, pubExit := none, capLine := none,
     pubLine := some ("Connection TIMEOUT".toList)}
    [true] {status := true, ind := true} ("Connection TIMEOUT".toList)
    rfl rfl (by decide) rfl (by decide) (by decide)
  exact ⟨h.1, by simpa [monitor_process_output] using h.2⟩

/-- Claim C7: within one streaming poll iteration the health checks run in
the fixed order capture-exit, publish-exit, diagnostic-line read (capture
then publish), connectivity probe, and a positive earlier check
short-circuits the later ones: the returned traces and unconsumed streams
show that a capture exit consumes no diagnostic line and no probe, a
publish exit likewise, a positive capture-line classification prevents the
publish-line read and the probe, and only when all earlier checks are
negative is a probe consumed and acted on. -/
theorem claimC7 (inp : PollInp) (probes : List Bool) (cfg : Config) :
    (∀ c : Int, inp.capExit = some c →
      pollIter inp probes cfg = (some false, probes, {cfg with ind := false},
        [Ev.obs Phase.streaming cfg.ind, Ev.readFinal true,
         Ev.gpio false, Ev.kill])) ∧
    (∀ c : Int, inp.capExit = none → inp.pubExit = some c →
      pollIter inp probes cfg = (some false, probes, {cfg with ind := false},
        [Ev.obs Phase.streaming cfg.ind, Ev.readFinal false,
         Ev.gpio false, Ev.kill])) ∧
    (inp.capExit = none → inp.pubExit = none →
      (monitor_process_output "libcamera" inp.capLine).1 = true →
      pollIter inp probes cfg = (some false, probes, {cfg with ind := false},
        [Ev.obs Phase.streaming cfg.ind] ++
        (monitor_process_output "libcamera" inp.capLine).2 ++
        [Ev.gpio false, Ev.kill])) ∧
    (∀ (p : Bool) (ps : List Bool), inp.capExit = none → inp.pubExit = none →
      (monitor_process_output "libcamera" inp.capLine).1 = false →
      (monitor_process_output "ffmpeg" inp.pubLine).1 = false →
      probes = p :: ps →
      pollIter inp probes cfg =
        (if p then
          (some true, ps, cfg,
            [Ev.obs Phase.streaming cfg.ind] ++
            (monitor_process_output "libcamera" inp.capLine).2 ++
            (monitor_process_output "ffmpeg" inp.pubLine).2 ++
            [Ev.probe true, Ev.sleep 3])
        else
          (some false, ps, {cfg with ind := false},
            [Ev.obs Phase.streaming cfg.ind] ++
            (monitor_process_output "libcamera" inp.capLine).2 ++
            (monitor_process_output "ffmpeg" inp.pubLine).2 ++
            [Ev.probe false, Ev.gpio false, Ev.kill]))) := by
  refine ⟨?_, ?_, ?_, ?_⟩
  · intro c hc
    simp [pollIter, hc]
  · intro c hc hp
    simp [pollIter, hc, hp]
  · intro hc hp hm1
    simp [pollIter, hc, hp, hm1]
  · intro p ps hc hp hm1 hm2 hprobes
    cases p <;> simp [pollIter, hc, hp, hm1, hm2, hprobes]

/-- Witness for claim C7: with the capture process exited, the iteration
reports it without reading any diagnostic line or consuming a probe. -/
theorem claimC7_witness :
    pollIter
      {capExit := some 1, pubExit := none,
       capLine := some ("error".toList), pubLine := some ("error".toList)}
      [true] {status := true, ind := true} =
      (some false, [true], {status := true, ind := false},
        [Ev.obs Phase.streaming true, Ev.readFinal true,
         Ev.gpio false, Ev.kill]) :=
  (claimC7
    {capExit := some 1, pubExit := none,
     capLine := some ("error".toList), pubLine := some ("error".toList)}
    [true] {status := true, ind := true}).1 1 rfl

/-! ### Claims about the launcher and the teardown -/

/-- Claim C8: `start_streaming` never propagates an exception — the blanket
handler turns every raising path into a `None` return — and it returns a
pipeline handle exactly when every setup step succeeds; in particular, when
the capture process has already exited after the settle delay, its
diagnostic output is read, `None` is returned, and the publish process is
never spawned. -/
theorem claimC8 (e : StartEnv) :
    ((start_streaming e).1 = some () ↔
      (e.captureSpawn = none ∧ e.captureEarlyExit = none ∧
       e.publishSpawn = none ∧ e.closeRaises = false)) ∧
    (∀ c : Int, e.captureSpawn = none → e.captureEarlyExit = some c →
      (start_streaming e).1 = none ∧
      Ev.readFinal true ∈ (start_streaming e).2 ∧
      Ev.spawnPublish ∉ (start_streaming e).2) ∧
    (∀ (err : PyErr) (evs : List Ev),
      startStreamingRaw e = .error (err, evs) →
      start_streaming e = (none, evs)) := by
  obtain ⟨cs, ce, pb, cr⟩ := e
  refine ⟨?_, ?_, ?_⟩
  · cases cs <;> cases ce <;> cases pb <;> cases cr <;>
      simp [start_streaming, startStreamingRaw]
  · intro c hcs hce
    subst hcs
    subst hce
    cases pb <;> cases cr <;>
      simp [start_streaming, startStreamingRaw]
  · intro err evs hraw
    simp [start_streaming, hraw]

/-- Witness for claim C8 at a concrete environment whose capture process
exits during the settle delay. -/
theorem claimC8_witness :
    (start_streaming
      {captureSpawn := none, captureEarlyExit := some 1,
       publishSpawn := none, closeRaises := false}).1 = none ∧
    Ev.readFinal true ∈ (start_streaming
      {captureSpawn := none, captureEarlyExit := some 1,
       publishSpawn := none, closeRaises := false}).2 ∧
    Ev.spawnPublish ∉ (start_streaming
      {captureSpawn := none, captureEarlyExit := some 1,
       publishSpawn := none, closeRaises := false}).2 :=
  (claimC8
    {captureSpawn := none, captureEarlyExit := some 1,
     publishSpawn := none, closeRaises := false}).2.1 1 rfl rfl

/-- Claim C9: teardown is total and idempotent: `kill_camera_processes`
returns normally on every oracle outcome (both handlers swallow), its
result is independent of the outcome (so no teardown outcome can alter the
supervisor's control flow), applying the process-table effect twice equals
applying it once, and applying it to an empty process table (nothing
running) is a no-op. -/
theorem claimC9 :
    (∀ e : KillEnv, kill_camera_processes e = ()) ∧
    (∀ e1 e2 : KillEnv, kill_camera_processes e1 = kill_camera_processes e2) ∧
    (∀ procs : List (List Char), killEffect (killEffect procs) = killEffect procs) ∧
    killEffect [] = [] := by
  refine ⟨fun e => rfl, fun e1 e2 => rfl, ?_, rfl⟩
  intro procs
  unfold killEffect
  simp only [List.filter_filter]
  refine List.filter_congr ?_
  intro a _
  dsimp only
  cases subL ("libcamera".toList) a <;> cases subL ("ffmpeg".toList) a <;> rfl

/-! ### Trace bookkeeping lemmas for the supervisor model -/

theorem notifyCount_nil : notifyCount [] = 0 := rfl

theorem notifyCount_append (a b : List Ev) :
    notifyCount (a ++ b) = notifyCount a + notifyCount b := by
  simp [notifyCount, List.countP_append]

theorem launchTryCount_nil : launchTryCount [] = 0 := rfl

theorem launchTryCount_append (a b : List Ev) :
    launchTryCount (a ++ b) = launchTryCount a + launchTryCount b := by
  simp [launchTryCount, List.countP_append]

theorem notifyCount_monitor (pn : String) (l : Option (List Char)) :
    notifyCount (monitor_process_output pn l).2 = 0 := by
  cases l <;> rfl

theorem launchTryCount_monitor (pn : String) (l : Option (List Char)) :
    launchTryCount (monitor_process_output pn l).2 = 0 := by
  cases l <;> rfl

theorem obsAll_monitor (pn : String) (l : Option (List Char)) :
    ((monitor_process_output pn l).2.all obsOKb) = true := by
  cases l <;> rfl

theorem notifyCount_start (e : StartEnv) :
    notifyCount (start_streaming e).2 = 0 := by
  rcases e with ⟨cs, ce, pb, cr⟩
  cases cs <;> cases ce <;> cases pb <;> cases cr <;> rfl

theorem launchTryCount_start (e : StartEnv) :
    launchTryCount (start_streaming e).2 = 0 := by
  rcases e with ⟨cs, ce, pb, cr⟩
  cases cs <;> cases ce <;> cases pb <;> cases cr <;> rfl

theorem obsAll_start (e : StartEnv) :
    ((start_streaming e).2.all obsOKb) = true := by
  rcases e with ⟨cs, ce, pb, cr⟩
  cases cs <;> cases ce <;> cases pb <;> cases cr <;> rfl

theorem waitLoop_notify (ps : List Bool) :
    notifyCount (waitLoop ps).2.1 = 0 := by
  induction ps with
  | nil => rfl
  | cons p t ih =>
    by_cases hp : p = true
    · subst hp; rfl
    · have hp2 : p = false := by simpa using hp
      subst hp2
      simpa [waitLoop, notifyCount] using ih

theorem waitLoop_launch (ps : List Bool) :
    launchTryCount (waitLoop ps).2.1 = 0 := by
  induction ps with
  | nil => rfl
  | cons p t ih =>
    by_cases hp : p = true
    · subst hp; rfl
    · have hp2 : p = false := by simpa using hp
      subst hp2
      simpa [waitLoop, launchTryCount] using ih

theorem waitLoop_obsAll (ps : List Bool) :
    ((waitLoop ps).2.1.all obsOKb) = true := by
  induction ps with
  | nil => rfl
  | cons p t ih =>
    by_cases hp : p = true
    · subst hp; rfl
    · have hp2 : p = false := by simpa using hp
      subst hp2
      simpa [waitLoop, obsOKb] using ih

theorem waitLoop_suffix (ps : List Bool) (r : List Bool)
    (h : (waitLoop ps).1 = some r) : r <:+ ps := by
  induction ps generalizing r with
  | nil => simp [waitLoop] at h
  | cons p t ih =>
    by_cases hp : p = true
    · subst hp
      simp [waitLoop] at h
      subst h
      exact List.suffix_cons _ _
    · have hp2 : p = false := by simpa using hp
      subst hp2
      simp [waitLoop] at h
      exact (ih r h).trans (List.suffix_cons _ _)

theorem pollIter_status (inp : PollInp) (probes : List Bool) (cfg : Config) :
    (pollIter inp probes cfg).2.2.1.status = cfg.status := by
  unfold pollIter
  dsimp only
  repeat' split <;> try rfl

theorem monitor_evs (pn : String) (l : Option (List Char)) :
    (monitor_process_output pn l).2 = [] ∨
    (monitor_process_output pn l).2 = [Ev.readLine (pn == "libcamera")] := by
  cases l <;> simp [monitor_process_output]

theorem pollIter_notify (inp : PollInp) (probes : List Bool) (cfg : Config) :
    notifyCount (pollIter inp probes cfg).2.2.2 = 0 := by
  unfold pollIter
  dsimp only
  rcases monitor_evs "libcamera" inp.capLine with hm1 | hm1 <;>
    rcases monitor_evs "ffmpeg" inp.pubLine with hm2 | hm2 <;>
    rw [hm1, hm2]
  all_goals repeat' split
  all_goals simp [notifyCount]

theorem pollIter_launch (inp : PollInp) (probes : List Bool) (cfg : Config) :
    launchTryCount (pollIter inp probes cfg).2.2.2 = 0 := by
  unfold pollIter
  dsimp only
  rcases monitor_evs "libcamera" inp.capLine with hm1 | hm1 <;>
    rcases monitor_evs "ffmpeg" inp.pubLine with hm2 | hm2 <;>
    rw [hm1, hm2]
  all_goals repeat' split
  all_goals simp [launchTryCount]

theorem pollIter_suffix (inp : PollInp) (probes : List Bool) (cfg : Config) :
    (pollIter inp probes cfg).2.1 <:+ probes := by
  unfold pollIter
  dsimp only
  repeat' split
  all_goals first
    | exact List.suffix_rfl
    | exact List.suffix_cons _ _

theorem pollIter_obsAll (inp : PollInp) (probes : List Bool) (cfg : Config)
    (hind : cfg.ind = true) :
    ((pollIter inp probes cfg).2.2.2.all obsOKb) = true := by
  unfold pollIter
  dsimp only
  rcases monitor_evs "libcamera" inp.capLine with hm1 | hm1 <;>
    rcases monitor_evs "ffmpeg" inp.pubLine with hm2 | hm2 <;>
    rw [hm1, hm2]
  all_goals repeat' split
  all_goals simp [obsOKb, hind]

theorem pollIter_ind_break (inp : PollInp) (probes : List Bool) (cfg : Config)
    (h : (pollIter inp probes cfg).1 = some false) :
    (pollIter inp probes cfg).2.2.1.ind = false := by
  unfold pollIter at h ⊢
  dsimp only at h ⊢
  repeat' split at h
  all_goals simp_all

theorem pollIter_ind_cont (inp : PollInp) (probes : List Bool) (cfg : Config)
    (h : (pollIter inp probes cfg).1 = some true) :
    (pollIter inp probes cfg).2.2.1.ind = cfg.ind := by
  unfold pollIter at h ⊢
  dsimp only at h ⊢
  repeat' split at h
  all_goals simp_all

theorem pollLoop_status (is : List PollInp) (probes : List Bool) (cfg : Config) :
    (pollLoop is probes cfg).2.2.2.1.status = cfg.status := by
  induction is generalizing probes cfg with
  | nil => rfl
  | cons i t ih =>
    have hst := pollIter_status i probes cfg
    unfold pollLoop
    rcases hpi : pollIter i probes cfg with ⟨r, ps, cfg2, evs⟩
    rw [hpi] at hst
    rcases r with _ | b
    · exact hst
    · cases b
      · exact hst
      · dsimp only
        rcases hrec : pollLoop t ps cfg2 with ⟨r2, is2, ps2, cfg3, evs2⟩
        have h2 := ih ps cfg2
        rw [hrec] at h2
        exact h2.trans hst

theorem pollLoop_notify (is : List PollInp) (probes : List Bool) (cfg : Config) :
    notifyCount (pollLoop is probes cfg).2.2.2.2 = 0 := by
  induction is generalizing probes cfg with
  | nil => rfl
  | cons i t ih =>
    have hn := pollIter_notify i probes cfg
    unfold pollLoop
    rcases hpi : pollIter i probes cfg with ⟨r, ps, cfg2, evs⟩
    rw [hpi] at hn
    rcases r with _ | b
    · exact hn
    · cases b
      · exact hn
      · dsimp only
        rcases hrec : pollLoop t ps cfg2 with ⟨r2, is2, ps2, cfg3, evs2⟩
        have h2 := ih ps cfg2
        rw [hrec] at h2
        dsimp only at hn h2 ⊢
        rw [notifyCount_append, hn, h2]

theorem pollLoop_launch (is : List PollInp) (probes : List Bool) (cfg : Config) :
    launchTryCount (pollLoop is probes cfg).2.2.2.2 = 0 := by
  induction is generalizing probes cfg with
  | nil => rfl
  | cons i t ih =>
    have hn := pollIter_launch i probes cfg
    unfold pollLoop
    rcases hpi : pollIter i probes cfg with ⟨r, ps, cfg2, evs⟩
    rw [hpi] at hn
    rcases r with _ | b
    · exact hn
    · cases b
      · exact hn
      · dsimp only
        rcases hrec : pollLoop t ps cfg2 with ⟨r2, is2, ps2, cfg3, evs2⟩
        have h2 := ih ps cfg2
        rw [hrec] at h2
        dsimp only at hn h2 ⊢
        rw [launchTryCount_append, hn, h2]

theorem pollLoop_suffix (is : List PollInp) (probes : List Bool) (cfg : Config) :
    (pollLoop is probes cfg).2.2.1 <:+ probes := by
  induction is generalizing probes cfg with
  | nil => exact List.suffix_rfl
  | cons i t ih =>
    have hs := pollIter_suffix i probes cfg
    unfold pollLoop
    rcases hpi : pollIter i probes cfg with ⟨r, ps, cfg2, evs⟩
    rw [hpi] at hs
    rcases r with _ | b
    · exact hs
    · cases b
      · exact hs
      · dsimp only
        rcases hrec : pollLoop t ps cfg2 with ⟨r2, is2, ps2, cfg3, evs2⟩
        have h2 := ih ps cfg2
        rw [hrec] at h2
        exact h2.trans hs

theorem pollLoop_obsAll (is : List PollInp) (probes : List Bool) (cfg : Config)
    (hind : cfg.ind = true) :
    ((pollLoop is probes cfg).2.2.2.2.all obsOKb) = true := by
  induction is generalizing probes cfg with
  | nil => rfl
  | cons i t ih =>
    have ho := pollIter_obsAll i probes cfg hind
    unfold pollLoop
    rcases hpi : pollIter i probes cfg with ⟨r, ps, cfg2, evs⟩
    rw [hpi] at ho
    rcases r with _ | b
    · exact ho
    · cases b
      · exact ho
      · have hcont := pollIter_ind_cont i probes cfg (by rw [hpi])
        rw [hpi] at hcont
        dsimp only at hcont
        have hind2 : cfg2.ind = true := hcont.trans hind
        dsimp only
        rcases hrec : pollLoop t ps cfg2 with ⟨r2, is2, ps2, cfg3, evs2⟩
        have h2 := ih ps cfg2 hind2
        rw [hrec] at h2
        dsimp only at ho h2 ⊢
        rw [List.all_append, ho, h2]
        rfl

theorem pollLoop_ind (is : List PollInp) (probes : List Bool) (cfg : Config)
    (h : (pollLoop is probes cfg).1 = some ()) :
    (pollLoop is probes cfg).2.2.2.1.ind = false := by
  induction is generalizing probes cfg with
  | nil => simp [pollLoop] at h
  | cons i t ih =>
    unfold pollLoop at h ⊢
    rcases hpi : pollIter i probes cfg with ⟨r, ps, cfg2, evs⟩
    rw [hpi] at h
    rcases r with _ | b
    · simp at h
    · cases b
      · have hbrk := pollIter_ind_break i probes cfg (by rw [hpi])
        rw [hpi] at hbrk
        dsimp only at h ⊢
        exact hbrk
      · dsimp only at h ⊢
        rcases hrec : pollLoop t ps cfg2 with ⟨r2, is2, ps2, cfg3, evs2⟩
        rw [hrec] at h
        have h2 := ih ps cfg2
        rw [hrec] at h2
        dsimp only at h ⊢
        exact h2 h

theorem tryLaunch_notify (n : Nat) (es : List StartEnv) (ind : Bool) :
    notifyCount (tryLaunch n es ind).2.2 = 0 := by
  induction n generalizing es with
  | zero => rfl
  | succ n ih =>
    cases es with
    | nil => rfl
    | cons e t =>
      unfold tryLaunch
      dsimp only
      rcases hs : (start_streaming e).1 with _ | u
      · dsimp only
        rcases hrec : tryLaunch n t ind with ⟨res, es2, evs2⟩
        have h2 := ih t
        rw [hrec] at h2
        have hns := notifyCount_start e
        dsimp only at h2 ⊢
        simp only [notifyCount] at hns h2 ⊢
        simp [List.countP_cons, List.countP_append, hns, h2]
      · have hns := notifyCount_start e
        simp only [notifyCount] at hns ⊢
        simp [List.countP_cons, List.countP_append, hns]

theorem tryLaunch_launch_le (n : Nat) (es : List StartEnv) (ind : Bool) :
    launchTryCount (tryLaunch n es ind).2.2 ≤ n := by
  induction n generalizing es with
  | zero => exact Nat.le_refl 0
  | succ n ih =>
    cases es with
    | nil => exact Nat.zero_le _
    | cons e t =>
      unfold tryLaunch
      dsimp only
      rcases hs : (start_streaming e).1 with _ | u
      · dsimp only
        rcases hrec : tryLaunch n t ind with ⟨res, es2, evs2⟩
        have h2 := ih t
        rw [hrec] at h2
        have hls := launchTryCount_start e
        dsimp only at h2 ⊢
        simp only [launchTryCount] at hls h2 ⊢
        simp [List.countP_cons, List.countP_append, hls]
        omega
      · have hls := launchTryCount_start e
        simp only [launchTryCount] at hls ⊢
        simp [List.countP_cons, List.countP_append, hls]

theorem tryLaunch_obsAll (n : Nat) (es : List StartEnv) :
    ((tryLaunch n es false).2.2.all obsOKb) = true := by
  induction n generalizing es with
  | zero => rfl
  | succ n ih =>
    cases es with
    | nil => rfl
    | cons e t =>
      unfold tryLaunch
      dsimp only
      rcases hs : (start_streaming e).1 with _ | u
      · dsimp only
        rcases hrec : tryLaunch n t false with ⟨res, es2, evs2⟩
        have h2 := ih t
        rw [hrec] at h2
        have hos := obsAll_start e
        dsimp only at h2 ⊢
        simp [List.all_append, hos, h2, obsOKb]
      · have hos := obsAll_start e
        simp [List.all_append, hos, obsOKb]

theorem waitFI_obsAll (probes noks : List Bool) (st : Bool) :
    ((waitFI probes noks st).2.2.2.all obsOKb) = true := by
  have hob := waitLoop_obsAll probes
  unfold waitFI
  rcases hwl : waitLoop probes with ⟨r, evs, saw⟩
  rw [hwl] at hob
  rcases r with _ | ps
  · exact hob
  · dsimp only
    split
    · exact hob
    · cases noks with
      | nil => exact hob
      | cons nok nr =>
        dsimp only
        rw [List.all_append]
        simp [hob, obsOKb]

theorem waitFI_notify_le (probes noks : List Bool) (st : Bool) :
    notifyCount (waitFI probes noks st).2.2.2 ≤ 1 := by
  have hnc := waitLoop_notify probes
  unfold waitFI
  rcases hwl : waitLoop probes with ⟨r, evs, saw⟩
  rw [hwl] at hnc
  rcases r with _ | ps
  · simp [hnc]
  · dsimp only
    split
    · simp [hnc]
    · cases noks with
      | nil => simp [hnc]
      | cons nok nr =>
        dsimp only
        rw [notifyCount_append, hnc]
        simp [notifyCount, List.countP_cons]

theorem waitFI_launch (probes noks : List Bool) (st : Bool) :
    launchTryCount (waitFI probes noks st).2.2.2 = 0 := by
  have hlc := waitLoop_launch probes
  unfold waitFI
  rcases hwl : waitLoop probes with ⟨r, evs, saw⟩
  rw [hwl] at hlc
  rcases r with _ | ps
  · exact hlc
  · dsimp only
    split
    · exact hlc
    · cases noks with
      | nil => exact hlc
      | cons nok nr =>
        dsimp only
        rw [launchTryCount_append, hlc]
        simp [launchTryCount, List.countP_cons]

theorem waitFI_suffix (probes noks : List Bool) (st : Bool) :
    (waitFI probes noks st).2.1 <:+ probes := by
  unfold waitFI
  rcases hwl : waitLoop probes with ⟨r, evs, saw⟩
  rcases r with _ | ps
  · exact List.nil_suffix
  · have hs := waitLoop_suffix probes ps (by rw [hwl])
    dsimp only
    split
    · exact hs
    · cases noks with
      | nil => exact hs
      | cons nok nr => exact hs

theorem waitFI_noks_suffix (probes noks : List Bool) (st : Bool) :
    (waitFI probes noks st).2.2.1 <:+ noks := by
  unfold waitFI
  rcases hwl : waitLoop probes with ⟨r, evs, saw⟩
  rcases r with _ | ps
  · exact List.suffix_rfl
  · dsimp only
    split
    · exact List.suffix_rfl
    · cases noks with
      | nil => exact List.suffix_rfl
      | cons nok nr => exact List.suffix_cons _ _

theorem cycle_obsAll (s : Streams) (cfg : Config) (hind : cfg.ind = false) :
    ((cycle s cfg).2.2.2.all obsOKb) = true := by
  have hwo := waitFI_obsAll s.probes s.noks cfg.status
  unfold cycle
  rcases hw : waitFI s.probes s.noks cfg.status with ⟨r, ps, nks, wevs⟩
  rw [hw] at hwo
  dsimp only at hwo
  rcases r with _ | st2
  · dsimp only
    rw [List.all_append]
    simp [hwo, obsOKb, hind]
  · dsimp only
    rw [hind]
    have hlo := tryLaunch_obsAll 3 s.starts
    rcases htl : tryLaunch 3 s.starts false with ⟨res, es2, levs⟩
    rw [htl] at hlo
    dsimp only at hlo
    rcases res with _ | b
    · dsimp only
      simp [List.all_append, hwo, hlo, obsOKb]
    · cases b
      · dsimp only
        simp [List.all_append, hwo, hlo, obsOKb]
      · dsimp only
        have hpo := pollLoop_obsAll s.polls ps {status := st2, ind := true} rfl
        rcases hpl : pollLoop s.polls ps {status := st2, ind := true} with ⟨r2, pls, ps2, cfg3, pevs⟩
        rw [hpl] at hpo
        dsimp only at hpo
        rcases r2 with _ | u
        · dsimp only
          simp [List.all_append, hwo, hlo, hpo, obsOKb]
        · have hind3 := pollLoop_ind s.polls ps {status := st2, ind := true} (by rw [hpl])
          rw [hpl] at hind3
          dsimp only at hind3
          dsimp only
          simp [List.all_append, hwo, hlo, hpo, obsOKb, hind3]

theorem cycle_ind (s : Streams) (cfg : Config) (hind : cfg.ind = false)
    (h : (cycle s cfg).1 = some ()) : (cycle s cfg).2.2.1.ind = false := by
  unfold cycle at h ⊢
  rcases hw : waitFI s.probes s.noks cfg.status with ⟨r, ps, nks, wevs⟩
  rw [hw] at h
  rcases r with _ | st2
  · simp at h
  · dsimp only at h ⊢
    rw [hind] at h ⊢
    rcases htl : tryLaunch 3 s.starts false with ⟨res, es2, levs⟩
    rw [htl] at h
    rcases res with _ | b
    · simp at h
    · cases b
      · dsimp only at h ⊢
      · dsimp only at h ⊢
        rcases hpl : pollLoop s.polls ps {status := st2, ind := true} with ⟨r2, pls, ps2, cfg3, pevs⟩
        rw [hpl] at h
        rcases r2 with _ | u
        · simp at h
        · have hind3 := pollLoop_ind s.polls ps {status := st2, ind := true} (by rw [hpl])
          rw [hpl] at hind3
          dsimp only at hind3 ⊢
          exact hind3

theorem notifyCount_cons (e : Ev) (t : List Ev) :
    notifyCount (e :: t) =
      (match e with | Ev.notify _ => 1 | _ => 0) + notifyCount t := by
  cases e <;> simp [notifyCount, List.countP_cons, Nat.add_comm]

theorem launchTryCount_cons (e : Ev) (t : List Ev) :
    launchTryCount (e :: t) =
      (match e with | Ev.launchTry _ => 1 | _ => 0) + launchTryCount t := by
  cases e <;> simp [launchTryCount, List.countP_cons, Nat.add_comm]

theorem cycle_launch_le (s : Streams) (cfg : Config) :
    launchTryCount (cycle s cfg).2.2.2 ≤ 3 := by
  have hwl := waitFI_launch s.probes s.noks cfg.status
  unfold cycle
  rcases hw : waitFI s.probes s.noks cfg.status with ⟨r, ps, nks, wevs⟩
  rw [hw] at hwl
  dsimp only at hwl
  rcases r with _ | st2
  · dsimp only
    simp only [launchTryCount_append, launchTryCount_cons, launchTryCount_nil, hwl]
    omega
  · dsimp only
    have hll := tryLaunch_launch_le 3 s.starts cfg.ind
    rcases htl : tryLaunch 3 s.starts cfg.ind with ⟨res, es2, levs⟩
    rw [htl] at hll
    dsimp only at hll
    rcases res with _ | b
    · dsimp only
      simp only [launchTryCount_append, launchTryCount_cons, launchTryCount_nil, hwl]
      omega
    · cases b
      · dsimp only
        simp only [launchTryCount_append, launchTryCount_cons, launchTryCount_nil, hwl]
        omega
      · dsimp only
        have hpn := pollLoop_launch s.polls ps {status := st2, ind := true}
        rcases hpl : pollLoop s.polls ps {status := st2, ind := true} with ⟨r2, pls, ps2, cfg3, pevs⟩
        rw [hpl] at hpn
        dsimp only at hpn
        rcases r2 with _ | u
        · dsimp only
          simp only [launchTryCount_append, launchTryCount_cons, launchTryCount_nil, hwl, hpn]
          omega
        · dsimp only
          simp only [launchTryCount_append, launchTryCount_cons, launchTryCount_nil, hwl, hpn]
          omega

theorem cycle_probes_suffix (s : Streams) (cfg : Config) :
    (cycle s cfg).2.1.probes <:+ s.probes := by
  have hwps := waitFI_suffix s.probes s.noks cfg.status
  unfold cycle
  rcases hw : waitFI s.probes s.noks cfg.status with ⟨r, ps, nks, wevs⟩
  rw [hw] at hwps
  dsimp only at hwps
  rcases r with _ | st2
  · dsimp only
    exact hwps
  · dsimp only
    rcases htl : tryLaunch 3 s.starts cfg.ind with ⟨res, es2, levs⟩
    rcases res with _ | b
    · dsimp only
      exact hwps
    · cases b
      · dsimp only
        exact hwps
      · dsimp only
        have hps2 := pollLoop_suffix s.polls ps {status := st2, ind := true}
        rcases hpl : pollLoop s.polls ps {status := st2, ind := true} with ⟨r2, pls, ps2, cfg3, pevs⟩
        rw [hpl] at hps2
        dsimp only at hps2
        rcases r2 with _ | u
        · dsimp only
          exact hps2.trans hwps
        · dsimp only
          exact hps2.trans hwps

theorem cycle_noks_suffix (s : Streams) (cfg : Config) :
    (cycle s cfg).2.1.noks <:+ s.noks := by
  have hwns := waitFI_noks_suffix s.probes s.noks cfg.status
  unfold cycle
  rcases hw : waitFI s.probes s.noks cfg.status with ⟨r, ps, nks, wevs⟩
  rw [hw] at hwns
  dsimp only at hwns
  rcases r with _ | st2
  · dsimp only
    exact hwns
  · dsimp only
    rcases htl : tryLaunch 3 s.starts cfg.ind with ⟨res, es2, levs⟩
    rcases res with _ | b
    · dsimp only
      exact hwns
    · cases b
      · dsimp only
        exact hwns
      · dsimp only
        rcases hpl : pollLoop s.polls ps {status := st2, ind := true} with ⟨r2, pls, ps2, cfg3, pevs⟩
        rcases r2 with _ | u
        · dsimp only
          exact hwns
        · dsimp only
          exact hwns

theorem cycle_notify_true (s : Streams) (cfg : Config)
    (hp : ∀ x ∈ s.probes, x = true) (hst : cfg.status = true) :
    notifyCount (cycle s cfg).2.2.2 = 0 ∧
    (cycle s cfg).2.2.1.status = true := by
  cases hprobes : s.probes with
  | nil =>
    have hw : waitFI s.probes s.noks cfg.status = (none, [], s.noks, []) := by
      rw [hprobes]
      rfl
    unfold cycle
    rw [hw]
    dsimp only
    exact ⟨by simp [notifyCount_append, notifyCount_cons, notifyCount_nil], hst⟩
  | cons p t =>
    have hptrue : p = true := hp p (by rw [hprobes]; exact List.mem_cons_self _ _)
    have hw : waitFI s.probes s.noks cfg.status = (some true, t, s.noks, [Ev.probe true]) := by
      rw [hprobes, hptrue, hst]
      rfl
    unfold cycle
    rw [hw]
    dsimp only
    have hln := tryLaunch_notify 3 s.starts cfg.ind
    rcases htl : tryLaunch 3 s.starts cfg.ind with ⟨res, es2, levs⟩
    rw [htl] at hln
    dsimp only at hln
    rcases res with _ | b
    · refine ⟨?_, rfl⟩
      dsimp only
      simp [notifyCount_append, notifyCount_cons, notifyCount_nil, hln]
    · cases b
      · refine ⟨?_, rfl⟩
        dsimp only
        simp [notifyCount_append, notifyCount_cons, notifyCount_nil, hln]
      · dsimp only
        have hpn := pollLoop_notify s.polls t {status := true, ind := true}
        have hps := pollLoop_status s.polls t {status := true, ind := true}
        rcases hpl : pollLoop s.polls t {status := true, ind := true} with ⟨r2, pls, ps2, cfg3, pevs⟩
        rw [hpl] at hpn hps
        dsimp only at hpn hps
        rcases r2 with _ | u
        · refine ⟨?_, hps⟩
          dsimp only
          simp [notifyCount_append, notifyCount_cons, notifyCount_nil, hln, hpn]
        · refine ⟨?_, hps⟩
          dsimp only
          simp [notifyCount_append, notifyCount_cons, notifyCount_nil, hln, hpn]

theorem cycle_notify_false (s : Streams) (cfg : Config)
    (hp : ∀ x ∈ s.probes, x = true) (hn : ∀ x ∈ s.noks, x = true)
    (hst : cfg.status = false) :
    notifyCount (cycle s cfg).2.2.2 ≤ 1 ∧
    ((cycle s cfg).1 = some () → (cycle s cfg).2.2.1.status = true) ∧
    (s.probes ≠ [] → s.noks ≠ [] → notifyCount (cycle s cfg).2.2.2 = 1) := by
  cases hprobes : s.probes with
  | nil =>
    have hw : waitFI s.probes s.noks cfg.status = (none, [], s.noks, []) := by
      rw [hprobes]
      rfl
    unfold cycle
    rw [hw]
    dsimp only
    refine ⟨by simp [notifyCount_append, notifyCount_cons, notifyCount_nil], ?_, ?_⟩
    · intro hcontra
      simp at hcontra
    · intro hne _
      exact absurd rfl hne
  | cons p t =>
    have hptrue : p = true := hp p (by rw [hprobes]; exact List.mem_cons_self _ _)
    cases hnoks : s.noks with
    | nil =>
      have hw : waitFI s.probes s.noks cfg.status = (none, t, [], [Ev.probe true]) := by
        rw [hprobes, hptrue, hnoks, hst]
        rfl
      unfold cycle
      rw [hw]
      dsimp only
      refine ⟨by simp [notifyCount_append, notifyCount_cons, notifyCount_nil], ?_, ?_⟩
      · intro hcontra
        simp at hcontra
      · intro _ hne2
        exact absurd rfl hne2
    | cons nok nr =>
      have hnok : nok = true := hn nok (by rw [hnoks]; exact List.mem_cons_self _ _)
      have hw : waitFI s.probes s.noks cfg.status =
          (some true, t, nr, [Ev.probe true, Ev.notify true]) := by
        rw [hprobes, hptrue, hnoks, hnok, hst]
        rfl
      unfold cycle
      rw [hw]
      dsimp only
      have hln := tryLaunch_notify 3 s.starts cfg.ind
      rcases htl : tryLaunch 3 s.starts cfg.ind with ⟨res, es2, levs⟩
      rw [htl] at hln
      dsimp only at hln
      rcases res with _ | b
      · refine ⟨?_, fun _ => rfl, fun _ _ => ?_⟩ <;>
          simp [notifyCount_append, notifyCount_cons, notifyCount_nil, hln]
      · cases b
        · refine ⟨?_, fun _ => rfl, fun _ _ => ?_⟩ <;>
            simp [notifyCount_append, notifyCount_cons, notifyCount_nil, hln]
        · dsimp only
          have hpn := pollLoop_notify s.polls t {status := true, ind := true}
          have hps := pollLoop_status s.polls t {status := true, ind := true}
          rcases hpl : pollLoop s.polls t {status := true, ind := true} with ⟨r2, pls, ps2, cfg3, pevs⟩
          rw [hpl] at hpn hps
          dsimp only at hpn hps
          rcases r2 with _ | u
          · refine ⟨?_, fun hcontra => by simp at hcontra, fun _ _ => ?_⟩ <;>
              simp [notifyCount_append, notifyCount_cons, notifyCount_nil, hln, hpn]
          · refine ⟨?_, fun _ => hps, fun _ _ => ?_⟩ <;>
              simp [notifyCount_append, notifyCount_cons, notifyCount_nil, hln, hpn]

theorem mainLoop_obsAll (fuel : Nat) (s : Streams) (cfg : Config)
    (hind : cfg.ind = false) :
    ((mainLoop fuel s cfg).2.2.all obsOKb) = true := by
  induction fuel generalizing s cfg with
  | zero => rfl
  | succ fuel ih =>
    have hco := cycle_obsAll s cfg hind
    unfold mainLoop
    rcases hc : cycle s cfg with ⟨r, s2, cfg2, evs⟩
    rw [hc] at hco
    dsimp only at hco
    rcases r with _ | u
    · exact hco
    · have hci := cycle_ind s cfg hind (by rw [hc])
      rw [hc] at hci
      dsimp only at hci
      dsimp only
      rcases hm : mainLoop fuel s2 cfg2 with ⟨s3, cfg3, evs2⟩
      have h2 := ih s2 cfg2 hci
      rw [hm] at h2
      dsimp only at h2 ⊢
      rw [List.all_append, hco, h2]
      rfl

theorem mainLoop_notify_true (fuel : Nat) (s : Streams) (cfg : Config)
    (hp : ∀ x ∈ s.probes, x = true) (hst : cfg.status = true) :
    notifyCount (mainLoop fuel s cfg).2.2 = 0 := by
  induction fuel generalizing s cfg with
  | zero => rfl
  | succ fuel ih =>
    have hct := cycle_notify_true s cfg hp hst
    have hcp := cycle_probes_suffix s cfg
    unfold mainLoop
    rcases hc : cycle s cfg with ⟨r, s2, cfg2, evs⟩
    rw [hc] at hct hcp
    dsimp only at hct hcp
    rcases r with _ | u
    · exact hct.1
    · dsimp only
      rcases hm : mainLoop fuel s2 cfg2 with ⟨s3, cfg3, evs2⟩
      have hp2 : ∀ x ∈ s2.probes, x = true := fun x hx => hp x (hcp.sublist.subset hx)
      have h2 := ih s2 cfg2 hp2 hct.2
      rw [hm] at h2
      dsimp only at h2 ⊢
      rw [notifyCount_append, hct.1, h2]

theorem mainLoop_notify_le (fuel : Nat) (s : Streams) (cfg : Config)
    (hp : ∀ x ∈ s.probes, x = true) (hn : ∀ x ∈ s.noks, x = true) :
    notifyCount (mainLoop fuel s cfg).2.2 ≤ 1 := by
  cases hst : cfg.status with
  | true =>
    have h0 := mainLoop_notify_true fuel s cfg hp hst
    omega
  | false =>
    cases fuel with
    | zero => simp [mainLoop, notifyCount_nil]
    | succ fuel =>
      have hcf := cycle_notify_false s cfg hp hn hst
      have hcp := cycle_probes_suffix s cfg
      unfold mainLoop
      rcases hc : cycle s cfg with ⟨r, s2, cfg2, evs⟩
      rw [hc] at hcf hcp
      dsimp only at hcf hcp
      rcases r with _ | u
      · exact hcf.1
      · dsimp only
        rcases hm : mainLoop fuel s2 cfg2 with ⟨s3, cfg3, evs2⟩
        have hp2 : ∀ x ∈ s2.probes, x = true := fun x hx => hp x (hcp.sublist.subset hx)
        have hst2 : cfg2.status = true := hcf.2.1 rfl
        have h2 := mainLoop_notify_true fuel s2 cfg2 hp2 hst2
        rw [hm] at h2
        dsimp only at h2 ⊢
        rw [notifyCount_append, h2]
        have h1 := hcf.1
        omega

/-! ### Claims about the supervisor state machine -/

/-- Claim C3: at every observation point of a supervisor run the indicator
(pin 18) is high exactly when the machine is in the streaming phase with no
fatal signal yet acted upon, and the final shutdown leaves the indicator
low.  Observation points are emitted at the top of the wait state, before
each launch attempt, at the top of each streaming poll iteration, and at
the restart cooldown. -/
theorem claimC3 (fuel : Nat) (s : Streams) :
    ((runMain fuel s).2.all obsOKb) = true ∧ (runMain fuel s).1.ind = false := by
  unfold runMain
  rcases hm : mainLoop fuel s initConfig with ⟨s2, cfg, evs⟩
  have h2 := mainLoop_obsAll fuel s initConfig rfl
  rw [hm] at h2
  dsimp only at h2 ⊢
  refine ⟨?_, rfl⟩
  simp [List.all_append, h2, obsOKb]

/-- Claim C4: within one connect-launch cycle the launcher is attempted at
most 3 times; three consecutive failures produce exactly the three
attempt blocks (each followed by the fixed 3-second sleep), and the cycle
then routes back through the cooldown to the connectivity wait with the
outer loop continuing (`some ()`), the retry bound being the literal `3`
passed afresh by every cycle. -/
theorem claimC4 :
    (∀ (es : List StartEnv) (ind : Bool),
      launchTryCount (tryLaunch 3 es ind).2.2 ≤ 3) ∧
    (∀ (e1 e2 e3 : StartEnv) (es : List StartEnv) (ind : Bool),
      (start_streaming e1).1 = none → (start_streaming e2).1 = none →
      (start_streaming e3).1 = none →
      tryLaunch 3 (e1 :: e2 :: e3 :: es) ind =
        (some false, es,
          failBlock e1 ind ++ failBlock e2 ind ++ failBlock e3 ind)) ∧
    (∀ (s : Streams) (cfg : Config) (st2 : Bool) (ps nks : List Bool)
      (wevs : List Ev) (es2 : List StartEnv) (levs : List Ev),
      waitFI s.probes s.noks cfg.status = (some st2, ps, nks, wevs) →
      tryLaunch 3 s.starts cfg.ind = (some false, es2, levs) →
      cycle s cfg = (some (),
        {s with probes := ps, noks := nks, starts := es2},
        {cfg with status := st2},
        [Ev.obs Phase.waiting cfg.ind] ++ wevs ++ levs ++
          [Ev.obs Phase.cooldown cfg.ind, Ev.sleep 3])) := by
  refine ⟨?_, ?_, ?_⟩
  · intro es ind
    exact tryLaunch_launch_le 3 es ind
  · intro e1 e2 e3 es ind h1 h2 h3
    simp [tryLaunch, failBlock, h1, h2, h3]
  · intro s cfg st2 ps nks wevs es2 levs hw htl
    unfold cycle
    rw [hw]
    dsimp only
    rw [htl]

/-- Witness for claim C4: three concrete failing launch environments give
exactly three attempt blocks and route back (result `some false`, not a
terminal state). -/
theorem claimC4_witness :
    tryLaunch 3 [sFail, sFail, sFail] false =
      (some false, [],
        failBlock sFail false ++ failBlock sFail false ++
          failBlock sFail false) :=
  claimC4.2.1 sFail sFail sFail [] false rfl rfl rfl

/-- Counterexample to claim C1: in the run `cexStreamsC1` connectivity is
lost during the streaming poll (`Ev.probe false` occurs) and has already
returned when the wait loop next probes; the supervisor completes a second
wait and launches again (two launch attempts), yet the notifier runs only
once in total — not the one-further-time the claim requires — and the
NotificationStatus flag still reads notified (`true`) at the end, i.e. it
was never reset at the loss. -/
theorem claimC1_counterexample :
    Ev.probe false ∈ (runMain 2 cexStreamsC1).2 ∧
    launchTryCount (runMain 2 cexStreamsC1).2 = 2 ∧
    notifyCount (runMain 2 cexStreamsC1).2 = 1 ∧
    (runMain 2 cexStreamsC1).1.status = true := by decide

/-- Claim C1 (amended): a connectivity loss observed during the streaming
poll never resets the NotificationStatus flag; the flag is reset only by a
failed probe observed inside the wait loop.  Consequently a wait that
observed at least one failed probe notifies on completion (with the next
notification outcome), while a wait whose probes all succeeded and whose
entry flag is set completes without notifying. -/
theorem claimC1_amended :
    (∀ (inp : PollInp) (probes : List Bool) (cfg : Config),
      (pollIter inp probes cfg).2.2.1.status = cfg.status) ∧
    (∀ (probes ps : List Bool) (evs : List Ev) (nok : Bool)
      (nr : List Bool) (st : Bool),
      waitLoop probes = (some ps, evs, true) →
      waitFI probes (nok :: nr) st =
        (some nok, ps, nr, evs ++ [Ev.notify nok])) ∧
    (∀ (probes ps : List Bool) (evs : List Ev) (noks : List Bool),
      waitLoop probes = (some ps, evs, false) →
      waitFI probes noks true = (some true, ps, noks, evs)) := by
  refine ⟨pollIter_status, ?_, ?_⟩
  · intro probes ps evs nok nr st h
    unfold waitFI
    rw [h]
    dsimp only
    simp
  · intro probes ps evs noks h
    unfold waitFI
    rw [h]
    dsimp only
    simp

/-- Witness for the amended claim C1: a poll iteration that observes a lost
probe leaves the flag set, and a wait that observed a failed probe
notifies on completion. -/
theorem claimC1_witness :
    (pollIter benign [false] {status := true, ind := true}).2.2.1.status = true ∧
    waitFI [false, true] [true] false =
      (some true, [], [], [Ev.probe false, Ev.sleep 1, Ev.probe true,
        Ev.notify true]) := by
  constructor
  · exact claimC1_amended.1 benign [false] {status := true, ind := true}
  · exact claimC1_amended.2.1 [false, true] []
      [Ev.probe false, Ev.sleep 1, Ev.probe true] true [] false (by decide)

/-- Counterexample to claim C2: in the run `cexStreamsC2` every
connectivity probe succeeds — a single maximal reachability epoch — but
the notification HTTP call fails, so the flag stays unset and the notifier
is invoked twice (once per completion of the connectivity wait), not
exactly once as the claim requires regardless of notification outcome. -/
theorem claimC2_counterexample :
    (∀ x ∈ cexStreamsC2.probes, x = true) ∧
    notifyCount (runMain 2 cexStreamsC2).2 = 2 := by decide

/-- Claim C2 (amended): within a single reachability epoch (all probes
succeed) and with the notification HTTP call succeeding, the lifecycle
notifier is invoked at most once over the whole run — and exactly once as
soon as the run completes at least one connectivity wait; when the
notification call fails, the flag stays unset and the notifier is invoked
again at the next wait completion (see the counterexample). -/
theorem claimC2_amended (fuel : Nat) (s : Streams)
    (hp : ∀ x ∈ s.probes, x = true) (hn : ∀ x ∈ s.noks, x = true) :
    notifyCount (runMain fuel s).2 ≤ 1 ∧
    (1 ≤ fuel → s.probes ≠ [] → s.noks ≠ [] →
      notifyCount (runMain fuel s).2 = 1) := by
  cases fuel with
  | zero =>
    constructor
    · simp [runMain, mainLoop, notifyCount_cons, notifyCount_append, notifyCount_nil]
    · intro hf _ _
      exact absurd hf (by omega)
  | succ f =>
    have hcf := cycle_notify_false s initConfig hp hn rfl
    have hcp := cycle_probes_suffix s initConfig
    unfold runMain mainLoop
    rcases hc : cycle s initConfig with ⟨r, s2, cfg2, evs⟩
    rw [hc] at hcf hcp
    dsimp only at hcf hcp ⊢
    rcases r with _ | u
    · constructor
      · simp only [notifyCount_cons, notifyCount_append, notifyCount_nil]
        have h1 := hcf.1
        omega
      · intro _ hpne hnne
        have h1 := hcf.2.2 hpne hnne
        simp only [notifyCount_cons, notifyCount_append, notifyCount_nil]
        omega
    · dsimp only
      rcases hml : mainLoop f s2 cfg2 with ⟨s3, cfg3, evs2⟩
      have hp2 : ∀ x ∈ s2.probes, x = true := fun x hx => hp x (hcp.sublist.subset hx)
      have hst2 : cfg2.status = true := hcf.2.1 rfl
      have h0 := mainLoop_notify_true f s2 cfg2 hp2 hst2
      rw [hml] at h0
      dsimp only at h0
      constructor
      · simp only [notifyCount_cons, notifyCount_append, notifyCount_nil, h0]
        have h1 := hcf.1
        omega
      · intro _ hpne hnne
        have h1 := hcf.2.2 hpne hnne
        simp only [notifyCount_cons, notifyCount_append, notifyCount_nil, h0]
        omega

/-- Witness for the amended claim C2: with one successful probe, one
successful notification outcome and one successful launch, the notifier
runs exactly once. -/
theorem claimC2_witness :
    notifyCount (runMain 1
      {probes := [true], noks := [true], starts := [sOk], polls := []}).2 = 1 :=
  (claimC2_amended 1
    {probes := [true], noks := [true], starts := [sOk], polls := []}
    (by decide) (by decide)).2 (by decide) (by decide) (by decide)
